import Mathlib

/-!
Shallow embedding of the `Deque` container from `src/Deque.h` (a two-level
block/map deque with `BLOCK_SIZE = 64`), together with theorems checking the
specification's claims against the code.

Modelling conventions:
* `_Ty*` blocks of 64 raw cells become `List (Option α)` of length 64; a cell
  is `some v` when a live element was placement-constructed there and `none`
  when the cell is raw (unconstructed) storage.
* The map `_Ty**` becomes `List (Option (Block α))`; a slot is `none` exactly
  when the corresponding pointer is `nullptr`.  `_map_size` is the list's
  length (the code keeps `_map_size` equal to the allocation size everywhere).
  A null `_map` (moved-from state) is modelled as the empty list: the only
  observable behaviour of a null map — faulting on any access — coincides.
* Machine `size_t` values are `Nat`; the iterator arithmetic in `operator+`
  is the one place where the code actually exercises unsigned wrap-around, and
  there the conversions are modelled with explicit `% 2^64`.
* Undefined behaviour (dereferencing a null block pointer, reading a map slot
  out of range, reading an unconstructed cell) is `OpResult.fault` /
  `none`; a thrown `std::out_of_range` is `OpResult.thrown s` carrying the
  container state at the moment of the throw (the code throws before any
  mutation, so the carried state records what the caller can still observe).
-/

namespace DequeModel

/-- Fixed-capacity block: 64 cells of possibly-unconstructed storage. -/
abbrev Block (α : Type) := List (Option α)

/-- The map: an array of block-ownership slots (`none` = null pointer). -/
abbrev BlockMap (α : Type) := List (Option (Block α))

/-- BLOCK_SIZE from the source. -/
def BLOCK_SIZE : Nat := 64

/-- The fields of `Deque<_Ty>`: `_map` (with `_map_size = map.length`),
`_size`, and the two cursors. -/
structure DequeState (α : Type) where
  map : BlockMap α
  size : Nat
  start_block : Nat
  start_offset : Nat
  finish_block : Nat
  finish_offset : Nat
  deriving DecidableEq

/-- Result of a mutating operation: normal return, thrown
`std::out_of_range` (carrying the state at the throw), or undefined
behaviour (null/out-of-range dereference). -/
inductive OpResult (σ : Type) where
  | ok : σ → OpResult σ
  | thrown : σ → OpResult σ
  | fault : OpResult σ
  deriving DecidableEq

/-- Result of an element access: the element, a thrown out-of-range, or
undefined behaviour. -/
inductive ReadResult (α : Type) where
  | ok : α → ReadResult α
  | thrown : ReadResult α
  | fault : ReadResult α
  deriving DecidableEq

def OpResult.isOk : OpResult σ → Bool
  | .ok _ => true
  | _ => false

/-- Extract the state of a successful operation (with a default). -/
def OpResult.getOk : OpResult σ → σ → σ
  | .ok s, _ => s
  | _, d => d

def ReadResult.isThrown : ReadResult α → Bool
  | .thrown => true
  | _ => false

/-- Read the element at physical slot `(b, o)`: `_map[b][o]`.  `none` when
the map slot is out of range or null, or the cell is unconstructed. -/
def readCell (m : BlockMap α) (b o : Nat) : Option α :=
  match m[b]? with
  | some (some blk) => (blk[o]?).bind id
  | _ => none

/-- Placement-construct a value at `_map[b] + o`; faults (returns `none`)
when the slot is out of range or null. -/
def writeCell (m : BlockMap α) (b o : Nat) (v : α) : Option (BlockMap α) :=
  match m[b]? with
  | some (some blk) => some (m.set b (some (blk.set o (some v))))
  | _ => none

/-- `std::destroy_at(_map[b] + o)`: the cell reverts to raw storage;
faults when the slot is out of range or null. -/
def destroyCell (m : BlockMap α) (b o : Nat) : Option (BlockMap α) :=
  match m[b]? with
  | some (some blk) => some (m.set b (some (blk.set o none)))
  | _ => none

/-- `allocate_map(n)`: fresh all-null slot array of `max(n, 8)` entries;
only `_map` and `_map_size` change. -/
def allocate_map (n : Nat) (d : DequeState α) : DequeState α :=
  let n8 := if n < 8 then 8 else n
  { d with map := List.replicate n8 none }

/-- `allocate_block(i)`: `_map[i] = new raw block` (all cells
unconstructed).  Callers establish `i < _map_size`. -/
def allocate_block (i : Nat) (d : DequeState α) : DequeState α :=
  { d with map := d.map.set i (some (List.replicate BLOCK_SIZE none)) }

/-- Copy loop of `reallocate_map`: `new_map[dst + k] = _map[src + k]` for
`k < cnt`; faults if a source read is out of range. -/
def copyRange (old : BlockMap α) : Nat → Nat → Nat → BlockMap α → Option (BlockMap α)
  | _, _, 0, m => some m
  | src, dst, c + 1, m =>
    match old[src]? with
    | none => none
    | some s => copyRange old (src + 1) (dst + 1) c (m.set dst s)

/-- `reallocate_map(add_to_front)`: double the map, copy the occupied slot
range to one quarter (front growth) or the centre (back growth), shift the
cursors' block indices by the same amount. -/
def reallocate_map (add_to_front : Bool) (d : DequeState α) : Option (DequeState α) :=
  let old_block_count := d.finish_block - d.start_block + 1
  let new_map_size := max 8 (d.map.length * 2)
  let new_start_block :=
    if add_to_front then new_map_size / 4 else new_map_size / 2 - old_block_count / 2
  (copyRange d.map d.start_block new_start_block old_block_count
      (List.replicate new_map_size none)).map fun m =>
    { d with
      map := m
      start_block := new_start_block
      finish_block := new_start_block + old_block_count - 1 }

/-- Default constructor `Deque()`: 8-slot map, both cursors at its centre,
one block allocated at the start cursor. -/
def deque0 (α : Type) : DequeState α :=
  let d : DequeState α := allocate_map 8 ⟨[], 0, 0, 0, 0, 0⟩
  let c := d.map.length / 2
  allocate_block c
    { d with start_block := c, start_offset := 0, finish_block := c, finish_offset := 0, size := 0 }

/-- `push_back(value)`: normalize a saturated finish cursor (growing the map
and/or allocating the next block as needed), placement-construct at the
finish position, bump `_finish_offset` and `_size`. -/
def push_back (v : α) (d : DequeState α) : OpResult (DequeState α) :=
  let step :=
    if d.finish_offset = BLOCK_SIZE then
      match (if d.finish_block + 1 ≥ d.map.length then reallocate_map false d else some d) with
      | none => OpResult.fault
      | some d1 =>
        match d1.map[d1.finish_block + 1]? with
        | none => OpResult.fault
        | some slot =>
          let d2 := match slot with
            | none => allocate_block (d1.finish_block + 1) d1
            | some _ => d1
          OpResult.ok { d2 with finish_block := d2.finish_block + 1, finish_offset := 0 }
    else OpResult.ok d
  match step with
  | OpResult.ok d3 =>
    match writeCell d3.map d3.finish_block d3.finish_offset v with
    | some m =>
      OpResult.ok { d3 with map := m, finish_offset := d3.finish_offset + 1, size := d3.size + 1 }
    | none => OpResult.fault
  | r => r

/-- `pop_back()`: throw if empty; step the finish cursor back (crossing into
the previous block without freeing the vacated block), destroy the element
there, decrement `_size`. -/
def pop_back (d : DequeState α) : OpResult (DequeState α) :=
  if d.size = 0 then OpResult.thrown d
  else
    let fb := if d.finish_offset = 0 then d.finish_block - 1 else d.finish_block
    let fo := if d.finish_offset = 0 then BLOCK_SIZE - 1 else d.finish_offset - 1
    match destroyCell d.map fb fo with
    | some m =>
      OpResult.ok { d with map := m, finish_block := fb, finish_offset := fo, size := d.size - 1 }
    | none => OpResult.fault

/-- `pop_front()`: throw if empty; destroy the element at the start cursor;
if the offset reaches BLOCK_SIZE, free the vacated block (slot becomes null)
and advance the start block; decrement `_size`. -/
def pop_front (d : DequeState α) : OpResult (DequeState α) :=
  if d.size = 0 then OpResult.thrown d
  else
    match destroyCell d.map d.start_block d.start_offset with
    | none => OpResult.fault
    | some m =>
      if d.start_offset + 1 = BLOCK_SIZE then
        OpResult.ok { d with
          map := m.set d.start_block none
          start_block := d.start_block + 1
          start_offset := 0
          size := d.size - 1 }
      else
        OpResult.ok { d with map := m, start_offset := d.start_offset + 1, size := d.size - 1 }

/-- `operator[](index)`: `offset = _start_offset + index`,
`block = _start_block + offset / BLOCK_SIZE`,
`block_offset = offset % BLOCK_SIZE`, read `_map[block][block_offset]`. -/
def opIndex (d : DequeState α) (index : Nat) : Option α :=
  let offset := d.start_offset + index
  let block := d.start_block + offset / BLOCK_SIZE
  let block_offset := offset % BLOCK_SIZE
  readCell d.map block block_offset

/-- `at(index)`: bounds-check against `_size`, throw out-of-range on
failure, otherwise delegate to `operator[]`. -/
def at_index (d : DequeState α) (index : Nat) : ReadResult α :=
  if d.size ≤ index then ReadResult.thrown
  else
    match opIndex d index with
    | some x => ReadResult.ok x
    | none => ReadResult.fault

/-- Element-destruction walk of `clear()`: destroy `_size` elements starting
at the start cursor, stepping the offset and wrapping into the next block at
BLOCK_SIZE. -/
def clearLoop (m : BlockMap α) : Nat → Nat → Nat → Option (BlockMap α)
  | _, _, 0 => some m
  | b, o, k + 1 =>
    match destroyCell m b o with
    | none => none
    | some m1 =>
      if o + 1 = BLOCK_SIZE then clearLoop m1 (b + 1) 0 k else clearLoop m1 b (o + 1) k

/-- `clear()`: no-op when empty; otherwise destroy every live element, free
every allocated block, allocate a fresh map of `max(_map_size/2, 8)` all-null
slots, and set both cursors to `_map_size/2` (the OLD map's half-size) with
`_size = 0`.  Note the code never allocates a block at the new cursor. -/
def clear (d : DequeState α) : Option (DequeState α) :=
  if d.size = 0 then some d
  else
    (clearLoop d.map d.start_block d.start_offset d.size).map fun _ =>
      let center := d.map.length / 2
      let n8 := if center < 8 then 8 else center
      { map := (List.replicate n8 none : BlockMap α)
        size := 0
        start_block := center
        start_offset := 0
        finish_block := center
        finish_offset := 0 }

/-- `destroy_all()`: free every block and the map itself, zero `_map_size`
and both cursors.  The code does NOT reset `_size`. -/
def destroy_all (d : DequeState α) : DequeState α :=
  { map := [], size := d.size, start_block := 0, start_offset := 0
    finish_block := 0, finish_offset := 0 }

/-- Copy loop of copy assignment: `push_back(other[i])` for `i < count`. -/
def copyLoop (other : DequeState α) : Nat → Nat → DequeState α → OpResult (DequeState α)
  | _, 0, d => OpResult.ok d
  | i, k + 1, d =>
    match opIndex other i with
    | none => OpResult.fault
    | some v =>
      match push_back v d with
      | OpResult.ok d1 => copyLoop other (i + 1) k d1
      | r => r

/-- `operator=(const Deque&)` for distinct objects: `destroy_all()`,
`allocate_map(other._map_size)`, then `push_back(other[i])` for each `i`.
Neither step resets `_size`, repositions the cursors, or allocates a block. -/
def copyAssign (other d : DequeState α) : OpResult (DequeState α) :=
  copyLoop other 0 other.size (allocate_map other.map.length (destroy_all d))

/-- State of the source after move construction `Deque(Deque&&)`: the map
pointer is nulled and both cursors zeroed, but the code never resets the
source's `_size` (and the member-init list never initializes the
destination's `_size` at all). -/
def moveCtorSource (d : DequeState α) : DequeState α :=
  { map := [], size := d.size, start_block := 0, start_offset := 0
    finish_block := 0, finish_offset := 0 }

/-- State of the source after move assignment `operator=(Deque&&)`: the code
zeroes every field of the source, including `_size`. -/
def moveAssignSource (_d : DequeState α) : DequeState α :=
  { map := [], size := 0, start_block := 0, start_offset := 0
    finish_block := 0, finish_offset := 0 }

/-- Run a sequence of `push_back`s. -/
def pushMany : List α → DequeState α → OpResult (DequeState α)
  | [], d => OpResult.ok d
  | v :: vs, d =>
    match push_back v d with
    | OpResult.ok d1 => pushMany vs d1
    | r => r

/-- Iterator coordinate: block index and in-block offset.  The `_map_ptr`
field of the source's iterators is not carried here: every iterator in the
claims below originates from one container (its `begin()`/`end()`), so the
`_map_ptr == rhs._map_ptr` conjunct of `operator==` / `operator<` is
identically true and the comparisons reduce to the coordinates. -/
structure Iterator where
  block : Nat
  offset : Nat
  deriving DecidableEq

/-- `Iterator::operator==` restricted to iterators over the same map. -/
def iterEq (i j : Iterator) : Bool :=
  i.block == j.block && i.offset == j.offset

/-- `Iterator::operator++`: pre-increment the offset; on reaching BLOCK_SIZE
move to the next block at offset 0. -/
def iterInc (it : Iterator) : Iterator :=
  if it.offset + 1 = BLOCK_SIZE then ⟨it.block + 1, 0⟩ else ⟨it.block, it.offset + 1⟩

/-- `n` applications of `Iterator::operator++`. -/
def incN : Nat → Iterator → Iterator
  | 0, it => it
  | n + 1, it => incN n (iterInc it)

/-- `begin()`: iterator at the start cursor. -/
def beginIter (d : DequeState α) : Iterator :=
  ⟨d.start_block, d.start_offset⟩

/-- `end()`: iterator at the finish cursor (whose offset may be 64). -/
def endIter (d : DequeState α) : Iterator :=
  ⟨d.finish_block, d.finish_offset⟩

/-- Word size of `std::size_t` / `std::ptrdiff_t` on the target. -/
def W64 : Nat := 2 ^ 64

/-- `Iterator::operator+(difference_type n)`.  The flattened position
`offset` is a ptrdiff_t, but `BLOCK_SIZE` is a `std::size_t`, so in
`offset / BLOCK_SIZE` and `offset % BLOCK_SIZE` the usual arithmetic
conversions turn `offset` into size_t: a negative flattened position wraps
to `offset + 2^64` before the division.  `off` is declared `size_type`, so
the `if (off < 0)` negative-remainder branch is kept here exactly as
written: a comparison on an unsigned quantity, which can never fire. -/
def iterPlus (it : Iterator) (n : Int) : Iterator :=
  let offset : Int := (it.offset : Int) + n
  let uoffset : Nat := (offset % (W64 : Int)).toNat
  let block : Nat := (it.block + uoffset / BLOCK_SIZE) % W64
  let off : Nat := uoffset % BLOCK_SIZE
  if off < 0 then ⟨(block + W64 - 1) % W64, off + BLOCK_SIZE⟩ else ⟨block, off⟩

/-- `Iterator::operator-(difference_type n)`: `*this + (-n)`. -/
def iterMinus (it : Iterator) (n : Int) : Iterator :=
  iterPlus it (-n)

/-- `Const_Iterator::operator+(difference_type n)`: textually the same
computation as `Iterator::operator+`, including the dead fix-up branch. -/
def constIterPlus (it : Iterator) (n : Int) : Iterator :=
  let offset : Int := (it.offset : Int) + n
  let uoffset : Nat := (offset % (W64 : Int)).toNat
  let block : Nat := (it.block + uoffset / BLOCK_SIZE) % W64
  let off : Nat := uoffset % BLOCK_SIZE
  if off < 0 then ⟨(block + W64 - 1) % W64, off + BLOCK_SIZE⟩ else ⟨block, off⟩

/-- Target of claim C2, written from the spec's words: the result of
`it + n` is the iterator at block `b + floor((o + n)/64)` with offset
`(o + n) mod 64` (a non-negative remainder below 64). -/
def iterPlusSpec (it : Iterator) (n : Int) : Int × Int :=
  (((it.block : Int) + Int.fdiv ((it.offset : Int) + n) 64),
   Int.emod ((it.offset : Int) + n) 64)

/-- Front-to-back traversal of the live range: read `k` elements starting at
physical position `(b, o)`, stepping the way the cursor walk in `clear()`
and `Iterator::operator++` do (offset + 1, wrapping into the next block at
BLOCK_SIZE).  `elemsFrom d.map d.start_block d.start_offset d.size` is the
container's contents in logical order. -/
def elemsFrom (m : BlockMap α) : Nat → Nat → Nat → Option (List α)
  | _, _, 0 => some []
  | b, o, k + 1 =>
    match readCell m b o with
    | none => none
    | some x =>
      match (if o + 1 = BLOCK_SIZE then elemsFrom m (b + 1) 0 k
             else elemsFrom m b (o + 1) k) with
      | none => none
      | some l => some (x :: l)

/-- Deque holding one element 7, reached by `push_back(7)` from default. -/
def dOne : DequeState Nat :=
  (push_back 7 (deque0 Nat)).getOk (deque0 Nat)

/-- Deque holding 3, 5, 4 in order, reached by three `push_back`s. -/
def dThree : DequeState Nat :=
  (pushMany [3, 5, 4] (deque0 Nat)).getOk (deque0 Nat)

/-- Deque holding 1, 2, reached by two `push_back`s. -/
def dTwo : DequeState Nat :=
  (pushMany [1, 2] (deque0 Nat)).getOk (deque0 Nat)

/-- State after `clear()` on `dTwo`. -/
def dTwoCleared : DequeState Nat :=
  (clear dTwo).getD (deque0 Nat)

/-- Deque reached by exactly 64 `push_back`s: the first block is exactly
filled, so `_finish_offset = 64`. -/
def dFull : DequeState Nat :=
  (pushMany (List.replicate 64 0) (deque0 Nat)).getOk (deque0 Nat)

/-- Deque reached by 257 `push_back`s: one `reallocate_map` has doubled the
map to 16 slots. -/
def dBig : DequeState Nat :=
  (pushMany (List.replicate 257 0) (deque0 Nat)).getOk (deque0 Nat)

/-- State after `clear()` on `dBig`: the fresh map has `max(16/2, 8) = 8`
slots but both cursors sit at `16/2 = 8`, one past the last slot. -/
def dBigCleared : DequeState Nat :=
  (clear dBig).getD (deque0 Nat)

/-! Helper lemmas about the traversal and the iterator increment. -/

/-- Reading the `i`-th element of the front-to-back traversal started at
`(b, o)` is reading the physical slot
`(b + (o + i) / BLOCK_SIZE, (o + i) % BLOCK_SIZE)`. -/
theorem elemsFrom_index (m : BlockMap α) :
    ∀ (k b o : Nat) (l : List α) (i : Nat), o < BLOCK_SIZE →
      elemsFrom m b o k = some l → i < k →
      l[i]? = readCell m (b + (o + i) / BLOCK_SIZE) ((o + i) % BLOCK_SIZE) := by
  intro k
  induction k with
  | zero => intro b o l i _ _ hik; omega
  | succ k ih =>
    intro b o l i ho hl hik
    rw [elemsFrom] at hl
    cases hx : readCell m b o with
    | none => rw [hx] at hl; exact absurd hl (by simp)
    | some x =>
      rw [hx] at hl
      by_cases hwrap : o + 1 = BLOCK_SIZE
      · rw [if_pos hwrap] at hl
        cases hrest : elemsFrom m (b + 1) 0 k with
        | none => rw [hrest] at hl; exact absurd hl (by simp)
        | some t =>
          rw [hrest] at hl
          obtain rfl : x :: t = l := by simpa using hl
          cases i with
          | zero =>
            have e1 : b + (o + 0) / BLOCK_SIZE = b := by
              simp only [BLOCK_SIZE] at ho ⊢; omega
            have e2 : (o + 0) % BLOCK_SIZE = o := by
              simp only [BLOCK_SIZE] at ho ⊢; omega
            rw [e1, e2, hx, List.getElem?_cons_zero]
          | succ j =>
            have hj : t[j]? = readCell m (b + 1 + (0 + j) / BLOCK_SIZE)
                ((0 + j) % BLOCK_SIZE) :=
              ih (b + 1) 0 t j (by simp [BLOCK_SIZE]) hrest (by omega)
            have e1 : b + 1 + (0 + j) / BLOCK_SIZE = b + (o + (j + 1)) / BLOCK_SIZE := by
              simp only [BLOCK_SIZE] at hwrap ⊢; omega
            have e2 : (0 + j) % BLOCK_SIZE = (o + (j + 1)) % BLOCK_SIZE := by
              simp only [BLOCK_SIZE] at hwrap ⊢; omega
            rw [List.getElem?_cons_succ, hj, e1, e2]
      · rw [if_neg hwrap] at hl
        cases hrest : elemsFrom m b (o + 1) k with
        | none => rw [hrest] at hl; exact absurd hl (by simp)
        | some t =>
          rw [hrest] at hl
          obtain rfl : x :: t = l := by simpa using hl
          cases i with
          | zero =>
            have e1 : b + (o + 0) / BLOCK_SIZE = b := by
              simp only [BLOCK_SIZE] at ho ⊢; omega
            have e2 : (o + 0) % BLOCK_SIZE = o := by
              simp only [BLOCK_SIZE] at ho ⊢; omega
            rw [e1, e2, hx, List.getElem?_cons_zero]
          | succ j =>
            have hj : t[j]? = readCell m (b + (o + 1 + j) / BLOCK_SIZE)
                ((o + 1 + j) % BLOCK_SIZE) :=
              ih b (o + 1) t j (by simp only [BLOCK_SIZE] at ho hwrap ⊢; omega)
                hrest (by omega)
            have e1 : b + (o + 1 + j) / BLOCK_SIZE = b + (o + (j + 1)) / BLOCK_SIZE := by
              simp only [BLOCK_SIZE]; omega
            have e2 : (o + 1 + j) % BLOCK_SIZE = (o + (j + 1)) % BLOCK_SIZE := by
              simp only [BLOCK_SIZE]; omega
            rw [List.getElem?_cons_succ, hj, e1, e2]

/-- Applying `Iterator::operator++` `n` times from `(b, o)` with `o` in
range lands on the floor/mod redistribution of the flattened position
`o + n`. -/
theorem incN_flatten (n : Nat) : ∀ b o : Nat, o < BLOCK_SIZE →
    incN n ⟨b, o⟩ = ⟨b + (o + n) / BLOCK_SIZE, (o + n) % BLOCK_SIZE⟩ := by
  induction n with
  | zero =>
    intro b o ho
    show (⟨b, o⟩ : Iterator) = _
    simp only [BLOCK_SIZE] at ho ⊢
    congr 1 <;> omega
  | succ n ih =>
    intro b o ho
    show incN n (iterInc ⟨b, o⟩) = _
    by_cases h : o + 1 = BLOCK_SIZE
    · rw [show iterInc ⟨b, o⟩ = ⟨b + 1, 0⟩ by simp [iterInc, h]]
      rw [ih (b + 1) 0 (by simp [BLOCK_SIZE])]
      simp only [BLOCK_SIZE] at h ⊢
      congr 1 <;> omega
    · rw [show iterInc ⟨b, o⟩ = ⟨b, o + 1⟩ by simp [iterInc, h]]
      rw [ih b (o + 1) (by simp only [BLOCK_SIZE] at ho h ⊢; omega)]
      simp only [BLOCK_SIZE] at h ⊢
      congr 1 <;> omega

/-! Claim theorems. -/

/-- C1: for every deque and every index `i < size()`, `operator[](i)` reads
the physical slot `(start_block + (start_offset + i) / 64,
(start_offset + i) % 64)`, this element is the `i`-th element of the
front-to-back traversal of the live range, and `at(i)` returns the same
element, independent of the block/map alignment (the state is arbitrary). -/
theorem C1_index_access (d : DequeState Nat) (i : Nat) (l : List Nat)
    (hso : d.start_offset < BLOCK_SIZE) (hi : i < d.size)
    (hl : elemsFrom d.map d.start_block d.start_offset d.size = some l) :
    opIndex d i = readCell d.map
        (d.start_block + (d.start_offset + i) / BLOCK_SIZE)
        ((d.start_offset + i) % BLOCK_SIZE) ∧
    opIndex d i = l[i]? ∧
    (∀ x, l[i]? = some x → at_index d i = ReadResult.ok x) := by
  have hidx : l[i]? = readCell d.map
      (d.start_block + (d.start_offset + i) / BLOCK_SIZE)
      ((d.start_offset + i) % BLOCK_SIZE) :=
    elemsFrom_index d.map d.size d.start_block d.start_offset l i hso hl hi
  refine ⟨rfl, hidx.symm, ?_⟩
  intro x hx
  have hnot : ¬ d.size ≤ i := by omega
  rw [at_index, if_neg hnot]
  have : opIndex d i = some x := by rw [show opIndex d i = l[i]? from hidx.symm, hx]
  rw [this]

/-- Witness for C1 at the deque holding 3, 5, 4 and index 1. -/
theorem C1_index_access_witness :
    dThree.start_offset < BLOCK_SIZE ∧ 1 < dThree.size ∧
    elemsFrom dThree.map dThree.start_block dThree.start_offset dThree.size
      = some [3, 5, 4] ∧
    (opIndex dThree 1 = [3, 5, 4][1]? ∧ at_index dThree 1 = ReadResult.ok 5) :=
  ⟨by decide, by decide, by decide,
   (C1_index_access dThree 1 [3, 5, 4] (by decide) (by decide) (by decide)).2.1,
   (C1_index_access dThree 1 [3, 5, 4] (by decide) (by decide) (by decide)).2.2
     5 (by decide)⟩

/-- C2: evaluation of `Iterator::operator+` (and `operator-`, and
`Const_Iterator::operator+`) at block 1, offset 0, distance −1.  The spec
formula demands block 0, offset 63, but because `offset / BLOCK_SIZE` is
computed in unsigned arithmetic (BLOCK_SIZE is a `std::size_t`) and the
`if (off < 0)` fix-up tests an unsigned variable, the code produces block
2^58.  For non-negative flattened positions the code agrees with the
formula. -/
theorem C2_iterator_plus_eval :
    iterPlus ⟨1, 0⟩ (-1) = ⟨288230376151711744, 63⟩ ∧
    iterMinus ⟨1, 0⟩ 1 = ⟨288230376151711744, 63⟩ ∧
    constIterPlus ⟨1, 0⟩ (-1) = ⟨288230376151711744, 63⟩ ∧
    iterPlusSpec ⟨1, 0⟩ (-1) = (0, 63) ∧
    (288230376151711744 : Nat) ≠ 0 ∧
    iterPlus ⟨1, 0⟩ 1 = ⟨1, 1⟩ ∧
    iterPlus ⟨2, 10⟩ 100 = ⟨3, 46⟩ ∧
    iterPlusSpec ⟨2, 10⟩ 100 = (3, 46) := by decide

/-- C3: the equation `size == (finish_block - start_block) * 64 +
finish_offset - start_offset` fails in a reachable state: after
`push_back(7)` on a default-constructed deque and then move construction
from it, the source still has `_size = 1` (the move constructor nulls the
map and zeroes the cursors but never resets the source's `_size`), so the
right-hand side is 0 while `size` is 1. -/
theorem C3_size_equation_violated :
    (push_back 7 (deque0 Nat)).isOk = true ∧
    (moveCtorSource dOne).size = 1 ∧
    ((moveCtorSource dOne).finish_block - (moveCtorSource dOne).start_block)
        * BLOCK_SIZE
      + (moveCtorSource dOne).finish_offset - (moveCtorSource dOne).start_offset
      = 0 := by decide

set_option maxRecDepth 100000 in
/-- C4: after `clear()` on a two-element deque the fresh map has 8 all-null
slots and both cursors sit at slot 4, but no block is allocated there, so
the next `push_back` writes through a null block pointer; and after
`clear()` on a deque whose map had grown to 16 slots, the fresh map has 8
slots while both cursors sit at slot 8 — not the new map's centre and out
of its range. -/
theorem C4_clear_leaves_no_block :
    (pushMany [1, 2] (deque0 Nat)).isOk = true ∧
    (clear dTwo).isSome = true ∧
    dTwoCleared.size = 0 ∧
    dTwoCleared.start_block = 4 ∧ dTwoCleared.finish_block = 4 ∧
    dTwoCleared.map.length = 8 ∧
    dTwoCleared.map[4]? = some none ∧
    push_back 3 dTwoCleared = OpResult.fault ∧
    (pushMany (List.replicate 257 (0 : Nat)) (deque0 Nat)).isOk = true ∧
    (clear dBig).isSome = true ∧
    dBig.map.length = 16 ∧
    dBigCleared.map.length = 8 ∧
    dBigCleared.start_block = 8 ∧
    dBigCleared.map[dBigCleared.start_block]? = none := by decide

/-- C5: after move construction from a one-element deque the source's
`size()` is still 1 (not 0: the move constructor never resets the source's
`_size`), and even after move assignment — which does zero every field —
a subsequent `push_back` on the source dereferences the null map. -/
theorem C5_move_source_not_reset :
    (push_back 7 (deque0 Nat)).isOk = true ∧
    (moveCtorSource dOne).size = 1 ∧
    (moveCtorSource dOne).size ≠ 0 ∧
    (moveAssignSource dOne).size = 0 ∧
    push_back 9 (moveAssignSource dOne) = OpResult.fault := by decide

/-- C6: copy assignment of a one-element deque onto a two-element deque
faults: `destroy_all()` nulls the map and zeroes the cursors (leaving
`_size` stale), `allocate_map` builds an all-null slot array, and the first
`push_back` then writes through the null block pointer at slot 0. -/
theorem C6_copy_assign_faults :
    (push_back 7 (deque0 Nat)).isOk = true ∧
    (pushMany [1, 2] (deque0 Nat)).isOk = true ∧
    copyAssign dOne dTwo = OpResult.fault := by decide

/-- A non-empty deque's `pop_back` never throws: the empty check is the only
throw site. -/
theorem pop_back_not_thrown (d : DequeState α) (hz : ¬ d.size = 0)
    (d' : DequeState α) : ¬ pop_back d = OpResult.thrown d' := by
  intro h
  simp only [pop_back, if_neg hz] at h
  revert h
  split <;> intro h <;> exact OpResult.noConfusion h

/-- A non-empty deque's `pop_front` never throws. -/
theorem pop_front_not_thrown (d : DequeState α) (hz : ¬ d.size = 0)
    (d' : DequeState α) : ¬ pop_front d = OpResult.thrown d' := by
  intro h
  simp only [pop_front, if_neg hz] at h
  revert h
  split
  · intro h; exact OpResult.noConfusion h
  · split <;> intro h <;> exact OpResult.noConfusion h

/-- C7: `at(i)` throws out-of-range exactly when `i ≥ size()`;
`pop_back()`/`pop_front()` throw exactly when the deque is empty; and a
throw leaves the container untouched (the thrown result carries the state
at the throw, which is always the original state). -/
theorem C7_error_conditions (d : DequeState Nat) (i : Nat) :
    ((at_index d i).isThrown = true ↔ d.size ≤ i) ∧
    (pop_back d = OpResult.thrown d ↔ d.size = 0) ∧
    (pop_front d = OpResult.thrown d ↔ d.size = 0) ∧
    (∀ d', pop_back d = OpResult.thrown d' → d' = d) ∧
    (∀ d', pop_front d = OpResult.thrown d' → d' = d) := by
  refine ⟨?_, ?_, ?_, ?_, ?_⟩
  · by_cases h : d.size ≤ i
    · simp [at_index, h, ReadResult.isThrown]
    · rw [at_index, if_neg h]
      cases hop : opIndex d i <;> simp [ReadResult.isThrown, h]
  · constructor
    · intro h
      by_contra hz
      exact pop_back_not_thrown d hz d h
    · intro hz
      rw [pop_back, if_pos hz]
  · constructor
    · intro h
      by_contra hz
      exact pop_front_not_thrown d hz d h
    · intro hz
      rw [pop_front, if_pos hz]
  · intro d' hd'
    by_cases hz : d.size = 0
    · rw [pop_back, if_pos hz] at hd'
      exact (OpResult.thrown.inj hd').symm
    · exact absurd hd' (pop_back_not_thrown d hz d')
  · intro d' hd'
    by_cases hz : d.size = 0
    · rw [pop_front, if_pos hz] at hd'
      exact (OpResult.thrown.inj hd').symm
    · exact absurd hd' (pop_front_not_thrown d hz d')

/-- Witness for C7: a default-constructed (empty) deque throws from
`pop_back` with its state intact, and `at(3)` on it throws, while `at(1)`
on a three-element deque does not. -/
theorem C7_error_conditions_witness :
    pop_back (deque0 Nat) = OpResult.thrown (deque0 Nat) ∧
    (at_index (deque0 Nat) 3).isThrown = true :=
  ⟨(C7_error_conditions (deque0 Nat) 3).2.1.mpr rfl,
   (C7_error_conditions (deque0 Nat) 3).1.mpr (by decide)⟩

/-- C8: in any state where the start cursor sits at the last offset of its
block, `pop_front` destroys the element, frees the vacated block — its map
slot becomes null — advances `start_block`, and leaves every other map slot
untouched; in any state where the finish cursor sits at offset 0,
`pop_back` steps back into the previous block, destroys the element at its
offset 63, does NOT free the vacated block (no slot's allocation changes;
the vacated slot at `finish_block` is bit-for-bit untouched), and leaves
every slot other than the one holding the destroyed element untouched. -/
theorem C8_pop_block_boundary (d e : DequeState Nat) (blk blkE : Block Nat)
    (hso : d.start_offset = 63) (hdz : ¬ d.size = 0)
    (hblk : d.map[d.start_block]? = some (some blk))
    (hfo : e.finish_offset = 0) (hez : ¬ e.size = 0) (hfb : 1 ≤ e.finish_block)
    (hblkE : e.map[e.finish_block - 1]? = some (some blkE)) :
    pop_front d = OpResult.ok { d with
        map := (d.map.set d.start_block (some (blk.set 63 none))).set d.start_block none
        start_block := d.start_block + 1
        start_offset := 0
        size := d.size - 1 } ∧
    ((d.map.set d.start_block (some (blk.set 63 none))).set d.start_block none)[d.start_block]?
      = some none ∧
    (∀ j, j ≠ d.start_block →
      ((d.map.set d.start_block (some (blk.set 63 none))).set d.start_block none)[j]?
        = d.map[j]?) ∧
    pop_back e = OpResult.ok { e with
        map := e.map.set (e.finish_block - 1) (some (blkE.set 63 none))
        finish_block := e.finish_block - 1
        finish_offset := 63
        size := e.size - 1 } ∧
    (e.map.set (e.finish_block - 1) (some (blkE.set 63 none)))[e.finish_block]?
      = e.map[e.finish_block]? ∧
    (e.map.set (e.finish_block - 1) (some (blkE.set 63 none)))[e.finish_block - 1]?
      = some (some (blkE.set 63 none)) ∧
    (∀ j, j ≠ e.finish_block - 1 →
      (e.map.set (e.finish_block - 1) (some (blkE.set 63 none)))[j]? = e.map[j]?) := by
  obtain ⟨hsbLen, -⟩ := List.getElem?_eq_some.mp hblk
  obtain ⟨hfbLen, -⟩ := List.getElem?_eq_some.mp hblkE
  refine ⟨?_, ?_, ?_, ?_, ?_, ?_, ?_⟩
  · rw [pop_front, if_neg hdz, hso]
    simp only [destroyCell, hblk]
    rw [if_pos (by decide : 63 + 1 = BLOCK_SIZE)]
  · rw [List.getElem?_set_eq_of_lt]
    rw [List.length_set]
    exact hsbLen
  · intro j hj
    rw [List.getElem?_set_ne (Ne.symm hj), List.getElem?_set_ne (Ne.symm hj)]
  · rw [pop_back, if_neg hez, hfo]
    simp only [reduceIte, BLOCK_SIZE, Nat.reduceSub, destroyCell, hblkE]
  · exact List.getElem?_set_ne (by omega)
  · exact List.getElem?_set_eq_of_lt _ hfbLen
  · intro j hj
    exact List.getElem?_set_ne (Ne.symm hj)

/-- Block whose 64 cells all hold `v`. -/
def fullBlock (v : Nat) : Block Nat := List.replicate 64 (some v)

/-- Witness edge state for the `pop_front` half of C8: start cursor at
offset 63 of block 0. -/
def dFrontEdge : DequeState Nat :=
  { map := [some (fullBlock 5), some (fullBlock 6)]
    size := 2, start_block := 0, start_offset := 63
    finish_block := 1, finish_offset := 1 }

/-- Witness edge state for the `pop_back` half of C8: finish cursor at
offset 0 of block 1. -/
def dBackEdge : DequeState Nat :=
  { map := [some (fullBlock 5), some (fullBlock 7)]
    size := 64, start_block := 0, start_offset := 0
    finish_block := 1, finish_offset := 0 }

/-- Witness for C8 at the two edge states. -/
theorem C8_pop_block_boundary_witness :
    dFrontEdge.start_offset = 63 ∧ ¬ dFrontEdge.size = 0 ∧
    dBackEdge.finish_offset = 0 ∧ ¬ dBackEdge.size = 0 ∧
    (pop_front dFrontEdge).isOk = true ∧ (pop_back dBackEdge).isOk = true := by
  have h := C8_pop_block_boundary dFrontEdge dBackEdge (fullBlock 5) (fullBlock 5)
    rfl (by decide) (by decide) rfl (by decide) (by decide) (by decide)
  exact ⟨rfl, by decide, rfl, by decide, by rw [h.1]; rfl, by rw [h.2.2.2.1]; rfl⟩

/-- C9: a reachable state violating the claimed invariant: after
`push_back(1); push_back(2); clear()` from a default-constructed deque,
`start_block = finish_block = 4` is in range of the 8-slot map, but slot 4
owns no block (it is null). -/
theorem C9_cursor_block_absent :
    (pushMany [1, 2] (deque0 Nat)).isOk = true ∧
    (clear dTwo).isSome = true ∧
    dTwoCleared.start_block = 4 ∧ dTwoCleared.finish_block = 4 ∧
    dTwoCleared.start_block < dTwoCleared.map.length ∧
    dTwoCleared.map[dTwoCleared.start_block]? = some none := by decide

set_option maxRecDepth 100000 in
/-- C10 counterexample: after exactly 64 `push_back`s from a
default-constructed deque the last block is exactly filled
(`finish_offset = 64`); applying `operator++` to `begin()` 64 times yields
the iterator `(5, 0)`, while `end()` is `(4, 64)`, and `operator==`
rejects them — the claim fails in exactly the state it singles out. -/
theorem C10_counterexample :
    (pushMany (List.replicate 64 (0 : Nat)) (deque0 Nat)).isOk = true ∧
    dFull.size = 64 ∧ dFull.finish_offset = 64 ∧
    incN dFull.size (beginIter dFull) = ⟨5, 0⟩ ∧
    endIter dFull = ⟨4, 64⟩ ∧
    iterEq (incN dFull.size (beginIter dFull)) (endIter dFull) = false := by decide

/-- C10 amended: in every state whose cursors satisfy the documented size
equation with both offsets strictly below BLOCK_SIZE (in particular the
finish offset: the last block not exactly filled), applying
`Iterator::operator++` to `begin()` exactly `size()` times yields an
iterator equal to `end()`. -/
theorem C10_begin_plus_size (d : DequeState Nat)
    (hso : d.start_offset < BLOCK_SIZE) (hfo : d.finish_offset < BLOCK_SIZE)
    (heq : BLOCK_SIZE * d.finish_block + d.finish_offset
         = BLOCK_SIZE * d.start_block + d.start_offset + d.size) :
    incN d.size (beginIter d) = endIter d ∧
    iterEq (incN d.size (beginIter d)) (endIter d) = true := by
  have h2 : incN d.size (beginIter d) = endIter d := by
    show incN d.size ⟨d.start_block, d.start_offset⟩
      = (⟨d.finish_block, d.finish_offset⟩ : Iterator)
    rw [incN_flatten d.size d.start_block d.start_offset hso]
    simp only [BLOCK_SIZE] at hso hfo heq ⊢
    congr 1 <;> omega
  exact ⟨h2, by rw [h2]; simp [iterEq]⟩

/-- Witness for the amended C10 at the deque holding 3, 5, 4. -/
theorem C10_begin_plus_size_witness :
    dThree.start_offset < BLOCK_SIZE ∧ dThree.finish_offset < BLOCK_SIZE ∧
    BLOCK_SIZE * dThree.finish_block + dThree.finish_offset
      = BLOCK_SIZE * dThree.start_block + dThree.start_offset + dThree.size ∧
    iterEq (incN dThree.size (beginIter dThree)) (endIter dThree) = true :=
  ⟨by decide, by decide, by decide,
   (C10_begin_plus_size dThree (by decide) (by decide) (by decide)).2⟩

end DequeModel
